import Mathlib

/-!
Verification of roulette-js (weighted-random-selection multiset).

Shallow embedding of the current implementation:
  * `src/modules/Roulette.js` — the `Roulette` collection class and the
    default deep-equality predicate `equal`;
  * `src/unnamed/part_003` (helpers.js) — `roulette`, `makeCumulative`,
    `randomInt`, `choose`.

JavaScript numbers are modelled as `ℚ` (integer counts as `ℤ`), thrown
exceptions as `Except.error`, and `undefined` results as `Option`/a
dedicated constructor.  The injected random source is an explicit `rand`
argument in `[0,1)` replacing `Math.random()`.
-/

namespace RouletteJS

/-! ## JavaScript value model (for the default `equal` predicate)

Values that can appear as collection items: `null`, `undefined`, the three
primitive types handled by `equal`, arrays (ordered sequences) and plain
objects (keyed structures, modelled as association lists with distinct
keys, in insertion order). -/

inductive JSVal : Type where
  | null : JSVal
  | undef : JSVal
  | bool : Bool → JSVal
  | num : ℚ → JSVal
  | str : String → JSVal
  | arr : List JSVal → JSVal
  | obj : List (String × JSVal) → JSVal

/-- `typeof` of a modelled value (`typeof null` is `"object"` in JS). -/
def jsTypeof : JSVal → String
  | .null => "object"
  | .undef => "undefined"
  | .bool _ => "boolean"
  | .num _ => "number"
  | .str _ => "string"
  | .arr _ => "object"
  | .obj _ => "object"

/-- Whether the value is one of the primitive types tested on line 86 of
`Roulette.js` (`boolean`, `number`, `string`). -/
def isPrimType : JSVal → Bool
  | .bool _ => true
  | .num _ => true
  | .str _ => true
  | _ => false

def isNullV : JSVal → Bool
  | .null => true
  | _ => false

def isUndefV : JSVal → Bool
  | .undef => true
  | _ => false

/-- `Array.isArray`. -/
def isArrV : JSVal → Bool
  | .arr _ => true
  | _ => false

/-- Value comparison `a == b` for two primitives that already have the same
`typeof` (reached only after the type test on line 82). -/
def primEq : JSVal → JSVal → Bool
  | .bool x, .bool y => x == y
  | .num x, .num y => x == y
  | .str x, .str y => x == y
  | _, _ => false

/-- `o.hasOwnProperty(p)`.  Errors model the TypeError raised when the
receiver is `null`/`undefined`.  Inside `equal` the receiver always has
`typeof` `"object"`, so primitive receivers (which JS would box) are left
as errors; that case is unreachable from `equal`. -/
def hasOwnProp : JSVal → String → Except Unit Bool
  | .obj props, p => .ok (props.any (fun q => q.1 == p))
  | .arr elems, p =>
      .ok (p == "length" || (List.range elems.length).any (fun i => toString i == p))
  | _, _ => .error ()

/-- Property read `o[p]`.  `null`/`undefined` receivers raise a TypeError;
a missing key reads as `undefined`; array reads resolve numeric-index
strings and `length`.  Primitive receivers are unreachable from `equal`
(see `hasOwnProp`). -/
def getProp : JSVal → String → Except Unit JSVal
  | .obj props, p =>
      .ok (match props.find? (fun q => q.1 == p) with
           | some q => q.2
           | none => .undef)
  | .arr elems, p =>
      .ok (if p == "length" then .num elems.length
           else match (List.range elems.length).find? (fun i => toString i == p) with
                | some i => elems.getD i .undef
                | none => .undef)
  | _, _ => .error ()

/-- Keys enumerated by `for (p in o)`: an object's own enumerable keys, an
array's index strings, nothing for `null`/`undefined`/`boolean`/`number`
(string receivers never reach a `for..in` inside `equal`). -/
def enumKeys : JSVal → List String
  | .obj props => props.map Prod.fst
  | .arr elems => (List.range elems.length).map toString
  | _ => []

/-- Second loop of the object branch of `equal` (lines 115–117): for every
enumerable key `p` of `b`, fail if `typeof(a[p]) == 'undefined'`.  Reading
`a[p]` with `a = null` raises. -/
def objLoop2 : List String → JSVal → Except Unit Bool
  | [], _ => .ok true
  | p :: ps, a =>
    match getProp a p with
    | .error e => .error e
    | .ok av => if jsTypeof av = "undefined" then .ok false else objLoop2 ps a

mutual

/-- The default comparison function `equal` of `Roulette.js` (lines
76–121).  `Except.error` models a thrown TypeError. -/
def equal (a b : JSVal) : Except Unit Bool :=
  -- null equals null and undefined equals undefined (lines 78–79)
  if isNullV a && isNullV b then .ok true
  else if isUndefV a && isUndefV b then .ok true
  -- unequal types are not equal (line 82)
  else if jsTypeof a ≠ jsTypeof b then .ok false
  -- primitive types compare by value (lines 85–88)
  else if isPrimType a then .ok (primEq a b)
  else if isArrV a then
    -- array branch (lines 91–103)
    match a, b with
    | .arr as_, .arr bs_ =>
        if as_.length ≠ bs_.length then .ok false else equalElems as_ bs_
    | _, _ => .ok false
  else
    -- object branch (lines 104–120); here `a` is `null` or an object and
    -- `for (p in null)` iterates nothing
    match (match a with
           | .obj props => objLoop1 props b
           | _ => Except.ok true) with
    | .error e => .error e
    | .ok false => .ok false
    | .ok true => objLoop2 (enumKeys b) a

/-- Element-wise comparison loop of the array branch (lines 99–101); the
lengths are already known to agree when this is reached. -/
def equalElems : List JSVal → List JSVal → Except Unit Bool
  | a :: as_, b :: bs_ =>
    match equal a b with
    | .error e => .error e
    | .ok false => .ok false
    | .ok true => equalElems as_ bs_
  | _, _ => .ok true

/-- First loop of the object branch (lines 108–112), iterating the own
enumerable properties `(p, av)` of `a`: compare `hasOwnProperty` on both
sides (`a.hasOwnProperty(p)` is `true` for an enumerated own key), then
recursively compare `a[p]` with `b[p]`. -/
def objLoop1 : List (String × JSVal) → JSVal → Except Unit Bool
  | [], _ => .ok true
  | (p, av) :: ps, b =>
    match hasOwnProp b p with
    | .error e => .error e
    | .ok hb =>
      if !hb then .ok false
      else
        match getProp b p with
        | .error e => .error e
        | .ok bv =>
          match equal av bv with
          | .error e => .error e
          | .ok false => .ok false
          | .ok true => objLoop1 ps b

end

/-! ## helpers.js (`src/unnamed/part_003`): the weighted sampler -/

/-- `makeCumulative` running-sum loop, with the running total `acc` made
explicit (`cweight` in the source, initially 0). -/
def makeCumulativeGo : ℚ → List ℚ → List ℚ
  | _, [] => []
  | acc, w :: ws => (acc + w) :: makeCumulativeGo (acc + w) ws

/-- `makeCumulative(weights)` (helpers.js lines 36–47): absolute weights to
cumulative weights. -/
def makeCumulative (weights : List ℚ) : List ℚ :=
  makeCumulativeGo 0 weights

/-- `randomInt(max)` = `Math.floor(Math.random() * max)`, with the random
draw `rand ∈ [0,1)` injected explicitly. -/
def randomInt (rand maxW : ℚ) : ℤ :=
  ⌊rand * maxW⌋

/-- The scan loop of `choose` (helpers.js lines 71–78): first index `i`
with `choice < cweights[i]`, else `none`.  `choice = none` models the NaN
produced when the collection was empty (`cweights[-1]` is `undefined`); a
comparison against NaN is always false. -/
def chooseScan (choice : Option ℤ) : List ℚ → ℕ → Option ℕ
  | [], _ => none
  | c :: cs, i =>
    if (match choice with | some v => decide ((v : ℚ) < c) | none => false)
    then some i
    else chooseScan choice cs (i + 1)

/-- `choose(weights)` (helpers.js lines 65–81).  The `RangeError` thrown
after the scan becomes `Except.error`. -/
def choose (rand : ℚ) (weights : List ℚ) : Except String ℕ :=
  let cweights := makeCumulative weights
  -- `cweights[cweights.length - 1]`: `undefined` (`none`) on an empty list
  let choice : Option ℤ := (cweights.getLast?).map (fun m => randomInt rand m)
  match chooseScan choice cweights 0 with
  | some i => .ok i
  | none => .error "no valid choice from cumulative weights"

/-- `roulette(items, weights)` (helpers.js lines 14–29).  An empty (or
length-0) weights argument is replaced by all-ones; a length mismatch
throws; otherwise the chosen index is resolved to `items[index]`
(`none` models `undefined` on an out-of-range read). -/
def roulette {α : Type} (rand : ℚ) (items : List α) (weights : List ℚ) :
    Except String (Option α) :=
  if weights.length = 0 then
    match choose rand (List.replicate items.length (1 : ℚ)) with
    | .error e => .error e
    | .ok i => .ok (items.get? i)
  else if weights.length ≠ items.length then
    .error "items and weights must have same length"
  else
    match choose rand weights with
    | .error e => .error e
    | .ok i => .ok (items.get? i)

/-! ## The `Roulette` collection class (`src/modules/Roulette.js`)

State is the triple of instance fields; the comparison function from
`this._opts` is passed explicitly as `cmp` (the default being `equal`
above).  Mutating methods return the new state paired with the JS return
value. -/

structure Roulette (α : Type) : Type where
  length : ℤ
  items : List α
  counts : List ℤ

/-- `new Roulette(opts)` (lines 132–156). -/
def Roulette.empty {α : Type} : Roulette α :=
  { length := 0, items := [], counts := [] }

/-- The linear scan of `indexOf` (lines 256–262): position of the first
element `x` of the list with `cmp item x`, if any. -/
def findFirst {α : Type} (cmp : α → α → Bool) (item : α) : List α → Option ℕ
  | [] => none
  | x :: xs => if cmp item x then some 0 else (findFirst cmp item xs).map (· + 1)

/-- `indexOf(item)` (lines 256–262): index of the first match, `-1` when
there is none. -/
def Roulette.indexOf {α : Type} (cmp : α → α → Bool) (r : Roulette α) (item : α) : ℤ :=
  match findFirst cmp item r.items with
  | none => -1
  | some i => (i : ℤ)

/-- `add(item)` (lines 163–178).  No match: push the item with count 1,
increment `length`, and return `this._items.length - 1` (the new index).
Match at `idx`: increment the count there and return the new count. -/
def Roulette.add {α : Type} (cmp : α → α → Bool) (r : Roulette α) (item : α) :
    Roulette α × ℤ :=
  match findFirst cmp item r.items with
  | none =>
      (⟨r.length + 1, r.items ++ [item], r.counts ++ [1]⟩,
       (r.items.length : ℤ) + 1 - 1)
  | some idx =>
      (⟨r.length, r.items, r.counts.set idx (r.counts.getD idx 0 + 1)⟩,
       r.counts.getD idx 0 + 1)

/-- `remove(item)` (lines 185–196).  No match: return 0.  Matched count
already `≤ 0`: return 0.  Otherwise decrement, clamp at 0, and return the
new count. -/
def Roulette.remove {α : Type} (cmp : α → α → Bool) (r : Roulette α) (item : α) :
    Roulette α × ℤ :=
  match findFirst cmp item r.items with
  | none => (r, 0)
  | some idx =>
      let c := r.counts.getD idx 0
      if c ≤ 0 then (r, 0)
      else
        let c2 := if c - 1 < 0 then 0 else c - 1
        (⟨r.length, r.items, r.counts.set idx c2⟩, c2)

/-- `purge(item)` (lines 205–213): no match returns `-1`; otherwise the
count at the matched index is set to 0 and the index returned. -/
def Roulette.purge {α : Type} (cmp : α → α → Bool) (r : Roulette α) (item : α) :
    Roulette α × ℤ :=
  match findFirst cmp item r.items with
  | none => (r, -1)
  | some idx => (⟨r.length, r.items, r.counts.set idx 0⟩, (idx : ℤ))

/-- `delete(item)` (lines 222–231): no match returns `-1`; otherwise both
parallel arrays are spliced at the matched index — `this.length` is left
untouched by the source — and the index is returned. -/
def Roulette.delete {α : Type} (cmp : α → α → Bool) (r : Roulette α) (item : α) :
    Roulette α × ℤ :=
  match findFirst cmp item r.items with
  | none => (r, -1)
  | some idx =>
      (⟨r.length, r.items.eraseIdx idx, r.counts.eraseIdx idx⟩, (idx : ℤ))

/-- `has(item)` (lines 241–247). -/
def Roulette.has {α : Type} (cmp : α → α → Bool) (r : Roulette α) (item : α) : Bool :=
  match findFirst cmp item r.items with
  | none => false
  | some _ => true

/-- `countOf(item)` (lines 283–289): count at the matched index, 0 when
absent. -/
def Roulette.countOf {α : Type} (cmp : α → α → Bool) (r : Roulette α) (item : α) : ℤ :=
  match findFirst cmp item r.items with
  | none => 0
  | some idx => r.counts.getD idx 0

/-- The filtering loop of `get` (lines 315–321): the `(item, count)` pairs
whose count is truthy (nonzero), in order.  The two parallel arrays always
have equal length in reachable states; the zip-style recursion mirrors the
index loop. -/
def activePairs {α : Type} : List α → List ℤ → List (α × ℤ)
  | x :: xs, c :: cs =>
      if c ≠ 0 then (x, c) :: activePairs xs cs else activePairs xs cs
  | _, _ => []

/-- `get(weight)` (lines 310–332).  `powFn x w` stands for the JS
exponentiation `x ** w` (opaque real-valued power, applied only when
`weight != 1`); `rand` is the injected random draw. -/
def Roulette.get {α : Type} (powFn : ℚ → ℚ → ℚ) (rand : ℚ) (r : Roulette α)
    (w : ℚ) : Except String (Option α) :=
  let pairs := activePairs r.items r.counts
  let items := pairs.map Prod.fst
  let weights0 := pairs.map (fun p => ((p.2 : ℚ)))
  let weights := if w ≠ 1 then weights0.map (fun x => powFn x w) else weights0
  roulette rand items weights

/-- Integer comparison used to instantiate the pluggable `comparison`
option in concrete witnesses. -/
def intEq (a b : ℤ) : Bool := a == b

/-! ## Helper lemmas -/

lemma findFirst_some_lt_length {α : Type} (cmp : α → α → Bool) (x : α) :
    ∀ (l : List α) (i : ℕ), findFirst cmp x l = some i → i < l.length := by
  intro l
  induction l with
  | nil => intro i h; simp [findFirst] at h
  | cons y ys ih =>
    intro i h
    by_cases hcy : cmp x y
    · simp [findFirst, hcy] at h
      simp only [List.length_cons]
      omega
    · simp only [findFirst, hcy, if_neg, Bool.false_eq_true, ite_false,
        Option.map_eq_some'] at h
      obtain ⟨j, hj, rfl⟩ := h
      have := ih j hj
      simpa using Nat.succ_lt_succ this

lemma getD_set_self_of_lt {α : Type} :
    ∀ (l : List α) (i : ℕ) (a d : α), i < l.length → (l.set i a).getD i d = a := by
  intro l
  induction l with
  | nil => intro i a d h; simp at h
  | cons y ys ih =>
    intro i a d h
    cases i with
    | zero => simp
    | succ j => simpa using ih j a d (by simpa using h)

lemma getD_set_zero_self (l : List ℤ) (i : ℕ) : (l.set i 0).getD i 0 = 0 := by
  induction l generalizing i with
  | nil => simp
  | cons y ys ih =>
    cases i with
    | zero => simp
    | succ j => simpa using ih j

lemma set_getD_self {α : Type} :
    ∀ (l : List α) (i : ℕ) (d : α), i < l.length → l.set i (l.getD i d) = l := by
  intro l
  induction l with
  | nil => intro i d h; simp at h
  | cons y ys ih =>
    intro i d h
    cases i with
    | zero => simp
    | succ j => simpa using ih j d (by simpa using h)

lemma set_set_self {α : Type} :
    ∀ (l : List α) (i : ℕ) (a b : α), (l.set i a).set i b = l.set i b := by
  intro l
  induction l with
  | nil => intro i a b; simp
  | cons y ys ih =>
    intro i a b
    cases i with
    | zero => simp
    | succ j => simp [ih j a b]

lemma getD_pos_lt_length (l : List ℤ) (i : ℕ) (h : 1 ≤ l.getD i 0) :
    i < l.length := by
  by_contra hge
  rw [List.getD_eq_default] at h
  · omega
  · omega

lemma makeCumulativeGo_length (acc : ℚ) (ws : List ℚ) :
    (makeCumulativeGo acc ws).length = ws.length := by
  induction ws generalizing acc with
  | nil => rfl
  | cons w ws2 ih => simp [makeCumulativeGo, ih]

lemma getLast_opt_cons_ne {α : Type} (a : α) (l : List α) (h : l ≠ []) :
    (a :: l).getLast? = l.getLast? := by
  cases l with
  | nil => exact absurd rfl h
  | cons b l2 => rfl

lemma mem_of_getLast_opt {α : Type} :
    ∀ (l : List α) (a : α), l.getLast? = some a → a ∈ l := by
  intro l
  induction l with
  | nil => intro a h; simp at h
  | cons b l2 ih =>
    intro a h
    cases hl : l2 with
    | nil =>
      subst hl
      simp only [List.getLast?_singleton, Option.some.injEq] at h
      simp [h]
    | cons c l3 =>
      subst hl
      rw [getLast_opt_cons_ne b (c :: l3) (by simp)] at h
      exact List.mem_cons_of_mem b (ih a h)

lemma makeCumulativeGo_getLast (acc : ℚ) (ws : List ℚ) (h : ws ≠ []) :
    (makeCumulativeGo acc ws).getLast? = some (acc + ws.sum) := by
  induction ws generalizing acc with
  | nil => exact absurd rfl h
  | cons w ws2 ih =>
    cases hw : ws2 with
    | nil =>
      subst hw
      simp [makeCumulativeGo]
    | cons w2 ws3 =>
      subst hw
      rw [makeCumulativeGo,
        getLast_opt_cons_ne _ _ (by simp [makeCumulativeGo]),
        ih (acc + w) (by simp)]
      simp only [List.sum_cons, Option.some.injEq]
      ring

lemma chooseScan_spec (v : ℤ) :
    ∀ (cs : List ℚ) (k : ℕ), (∃ c ∈ cs, (v : ℚ) < c) →
      ∃ j, chooseScan (some v) cs k = some (k + j) ∧ j < cs.length ∧
        ((v : ℚ) < cs.getD j 0) ∧ ∀ m < j, ¬ ((v : ℚ) < cs.getD m 0) := by
  intro cs
  induction cs with
  | nil => intro k h; simp at h
  | cons c cs2 ih =>
    intro k hex
    by_cases hvc : (v : ℚ) < c
    · refine ⟨0, by simp [chooseScan, hvc], by simp, by simpa using hvc, ?_⟩
      intro m hm
      omega
    · have hex2 : ∃ c2 ∈ cs2, (v : ℚ) < c2 := by
        obtain ⟨c2, hc2mem, hc2⟩ := hex
        rcases List.mem_cons.mp hc2mem with hceq | hctail
        · exact absurd (hceq ▸ hc2) hvc
        · exact ⟨c2, hctail, hc2⟩
      obtain ⟨j2, hscan, hjlt, hsat, hfirst⟩ := ih (k + 1) hex2
      refine ⟨j2 + 1, ?_, by simpa using Nat.succ_lt_succ hjlt, by simpa using hsat, ?_⟩
      · have hd : (decide ((v : ℚ) < c)) = false := by simp [hvc]
        simp only [chooseScan, hd, Bool.false_eq_true, ite_false, hscan,
          Option.some.injEq]
        omega
      · intro m hm
        cases m with
        | zero => simpa using hvc
        | succ m2 => simpa using hfirst m2 (by omega)

lemma activePairs_eq_nil {α : Type} :
    ∀ (xs : List α) (cs : List ℤ), (∀ c ∈ cs, c = 0) → activePairs xs cs = [] := by
  intro xs
  induction xs with
  | nil => intro cs _; cases cs <;> rfl
  | cons x xs2 ih =>
    intro cs h
    cases cs with
    | nil => rfl
    | cons c cs2 =>
      have hc : c = 0 := h c (by simp)
      subst hc
      simp only [activePairs, ne_eq, not_true_eq_false, ite_false]
      exact ih cs2 (fun c2 hc2 => h c2 (by simp [hc2]))

lemma findFirst_none_of_forall {α : Type} (cmp : α → α → Bool) (x : α) :
    ∀ (l : List α), (∀ m, m < l.length → cmp x (l.getD m x) = false) →
      findFirst cmp x l = none := by
  intro l
  induction l with
  | nil => intro _; rfl
  | cons y ys ih =>
    intro h
    have hcy : cmp x y = false := by simpa using h 0 (by simp)
    simp only [findFirst, hcy, Bool.false_eq_true, ite_false, Option.map_eq_none']
    exact ih (fun m hm => by simpa using h (m + 1) (by simpa using Nat.succ_lt_succ hm))

lemma findFirst_eraseIdx_of_lt {α : Type} (cmp : α → α → Bool) (x : α) :
    ∀ (l : List α) (i j : ℕ), j < i → findFirst cmp x l = some j →
      findFirst cmp x (l.eraseIdx i) = some j := by
  intro l
  induction l with
  | nil => intro i j hj h; simp [findFirst] at h
  | cons y ys ih =>
    intro i j hj h
    cases i with
    | zero => omega
    | succ i2 =>
      rw [List.eraseIdx_cons_succ]
      by_cases hcy : cmp x y
      · simpa [findFirst, hcy] using h
      · simp only [findFirst, hcy, Bool.false_eq_true, ite_false,
          Option.map_eq_some'] at h ⊢
        obtain ⟨j2, hj2, rfl⟩ := h
        exact ⟨j2, ih i2 j2 (by omega) hj2, rfl⟩

lemma findFirst_eraseIdx_of_gt {α : Type} (cmp : α → α → Bool) (x : α) :
    ∀ (l : List α) (i j : ℕ), i < j → findFirst cmp x l = some j →
      findFirst cmp x (l.eraseIdx i) = some (j - 1) := by
  intro l
  induction l with
  | nil => intro i j hj h; simp [findFirst] at h
  | cons y ys ih =>
    intro i j hij h
    by_cases hcy : cmp x y
    · simp [findFirst, hcy] at h
      omega
    · simp only [findFirst, hcy, Bool.false_eq_true, ite_false,
        Option.map_eq_some'] at h
      obtain ⟨j2, hj2, rfl⟩ := h
      cases i with
      | zero => simpa using hj2
      | succ i2 =>
        rw [List.eraseIdx_cons_succ]
        have hrec := ih i2 j2 (by omega) hj2
        simp only [findFirst, hcy, Bool.false_eq_true, ite_false, hrec,
          Option.map_some']
        congr 1
        omega

lemma findFirst_eraseIdx_none {α : Type} (cmp : α → α → Bool) (x : α) :
    ∀ (l : List α) (i : ℕ),
      (∀ m, m < l.length → m ≠ i → cmp x (l.getD m x) = false) →
      findFirst cmp x (l.eraseIdx i) = none := by
  intro l
  induction l with
  | nil => intro i _; rfl
  | cons y ys ih =>
    intro i h
    cases i with
    | zero =>
      rw [List.eraseIdx_cons_zero]
      exact findFirst_none_of_forall cmp x ys
        (fun m hm => by simpa using h (m + 1) (by simpa using Nat.succ_lt_succ hm) (by omega))
    | succ i2 =>
      rw [List.eraseIdx_cons_succ]
      have hcy : cmp x y = false := by simpa using h 0 (by simp) (by omega)
      simp only [findFirst, hcy, Bool.false_eq_true, ite_false, Option.map_eq_none']
      exact ih i2
        (fun m hm hne => by
          simpa using h (m + 1) (by simpa using Nat.succ_lt_succ hm) (by omega))

/-! ## Claim theorems -/

/-- Claim C2 (code-bug exhibit): `add` of a never-seen item is documented
(and claimed) to return the new count 1, but the source returns
`this._items.length - 1`, the new entry's index — 0 on a previously empty
collection — even though the stored count is 1. -/
theorem add_new_item_returns_index :
    (Roulette.add intEq Roulette.empty 7).2 = 0 ∧
    (Roulette.add intEq Roulette.empty 7).1.counts = [1] ∧
    (Roulette.add intEq Roulette.empty 7).1.items = [7] ∧
    (Roulette.add intEq (Roulette.add intEq Roulette.empty 7).1 7).2 = 2 := by
  decide

/-- Claim C3 (code-bug exhibit): `delete` splices both parallel arrays but
never decrements `this.length`, so after `add` then `delete` of the same
item the public `length` is 1 while no entry is stored. -/
theorem delete_leaves_length_stale :
    (Roulette.delete intEq (Roulette.add intEq Roulette.empty 7).1 7).1.length = 1 ∧
    (Roulette.delete intEq (Roulette.add intEq Roulette.empty 7).1 7).1.items = [] ∧
    (Roulette.delete intEq (Roulette.add intEq Roulette.empty 7).1 7).1.counts = [] := by
  decide

/-- Claim C4 (code-bug exhibit): `remove` of an absent item returns 0 —
the same value as removing a present entry whose count is already 0 — not
the documented `-1` sentinel distinct from the "found, now zero" result. -/
theorem remove_notfound_returns_zero :
    (Roulette.remove intEq Roulette.empty 7).2 = 0 ∧
    (Roulette.remove intEq ⟨1, [7], [0]⟩ 7).2 = 0 := by
  decide

/-- Claim C5: `purge` of an absent item returns `-1` and leaves the state
unchanged; with a match at index `i` it returns `i`, keeps the item list
intact, and afterwards `countOf` is 0 while `has` is still `true`. -/
theorem purge_spec {α : Type} (cmp : α → α → Bool) (r : Roulette α) (item : α) :
    (Roulette.has cmp r item = false → Roulette.purge cmp r item = (r, -1)) ∧
    (∀ i : ℕ, findFirst cmp item r.items = some i →
      (Roulette.purge cmp r item).2 = (i : ℤ) ∧
      (Roulette.purge cmp r item).1.items = r.items ∧
      Roulette.countOf cmp (Roulette.purge cmp r item).1 item = 0 ∧
      Roulette.has cmp (Roulette.purge cmp r item).1 item = true) := by
  constructor
  · intro h
    unfold Roulette.has at h
    unfold Roulette.purge
    cases hf : findFirst cmp item r.items with
    | none => simp
    | some i => rw [hf] at h; simp at h
  · intro i hf
    unfold Roulette.purge Roulette.countOf Roulette.has
    simp only [hf]
    exact ⟨trivial, trivial, getD_set_zero_self r.counts i, trivial⟩

/-- Witness for C5 at a concrete input. -/
theorem purge_spec_witness :
    (Roulette.purge intEq ⟨2, [5, 7], [1, 3]⟩ 7).2 = 1 ∧
    (Roulette.purge intEq ⟨2, [5, 7], [1, 3]⟩ 7).1.items = [5, 7] ∧
    Roulette.countOf intEq (Roulette.purge intEq ⟨2, [5, 7], [1, 3]⟩ 7).1 7 = 0 ∧
    Roulette.has intEq (Roulette.purge intEq ⟨2, [5, 7], [1, 3]⟩ 7).1 7 = true :=
  (purge_spec intEq ⟨2, [5, 7], [1, 3]⟩ 7).2 1 (by decide)

/-- Claim C6: when `item` matches an entry whose count is at least 1,
`remove` followed by `add` of the same item restores the entire prior
state (counts, items and `length` all unchanged). -/
theorem remove_then_add_restores {α : Type} (cmp : α → α → Bool) (r : Roulette α)
    (item : α) (i : ℕ)
    (hf : findFirst cmp item r.items = some i)
    (hc : 1 ≤ r.counts.getD i 0) :
    (Roulette.add cmp (Roulette.remove cmp r item).1 item).1 = r := by
  have hlt : i < r.counts.length := getD_pos_lt_length r.counts i hc
  unfold Roulette.remove
  simp only [hf]
  have h1 : ¬ (r.counts.getD i 0 ≤ 0) := by omega
  have h2 : ¬ (r.counts.getD i 0 - 1 < 0) := by omega
  simp only [h1, if_false, h2, ite_false]
  unfold Roulette.add
  simp only [hf]
  rw [getD_set_self_of_lt _ _ _ _ hlt, set_set_self]
  have h3 : r.counts.getD i 0 - 1 + 1 = r.counts.getD i 0 := by omega
  rw [h3, set_getD_self _ _ _ hlt]

/-- Claim C7: `delete` of an item whose only match is the entry at index
`i` returns `i` and physically removes that entry, so `has` becomes
`false`; the first match of any other item formerly at index `j` keeps
index `j` when `j < i` and moves to `j - 1` when `j > i`. -/
theorem delete_spec {α : Type} (cmp : α → α → Bool) (r : Roulette α) (item : α)
    (i : ℕ)
    (hf : findFirst cmp item r.items = some i)
    (hu : ∀ j, j < r.items.length → j ≠ i → cmp item (r.items.getD j item) = false) :
    (Roulette.delete cmp r item).2 = (i : ℤ) ∧
    Roulette.has cmp (Roulette.delete cmp r item).1 item = false ∧
    (∀ (x : α) (j : ℕ), findFirst cmp x r.items = some j →
      (j < i → Roulette.indexOf cmp (Roulette.delete cmp r item).1 x = (j : ℤ)) ∧
      (i < j → Roulette.indexOf cmp (Roulette.delete cmp r item).1 x = (j : ℤ) - 1)) := by
  unfold Roulette.delete
  simp only [hf]
  refine ⟨trivial, ?_, ?_⟩
  · simp [Roulette.has, findFirst_eraseIdx_none cmp item r.items i hu]
  · intro x j hj
    constructor
    · intro hlt
      simp [Roulette.indexOf, findFirst_eraseIdx_of_lt cmp x r.items i j hlt hj]
    · intro hgt
      simp only [Roulette.indexOf, findFirst_eraseIdx_of_gt cmp x r.items i j hgt hj]
      omega

/-- Witness for C7 at a concrete input (delete the middle of three
entries; the earlier entry keeps index 0, the later one moves to 1). -/
theorem delete_spec_witness :
    (Roulette.delete intEq ⟨3, [5, 7, 9], [1, 1, 1]⟩ 7).2 = 1 ∧
    Roulette.has intEq (Roulette.delete intEq ⟨3, [5, 7, 9], [1, 1, 1]⟩ 7).1 7 = false ∧
    Roulette.indexOf intEq (Roulette.delete intEq ⟨3, [5, 7, 9], [1, 1, 1]⟩ 7).1 5 = 0 ∧
    Roulette.indexOf intEq (Roulette.delete intEq ⟨3, [5, 7, 9], [1, 1, 1]⟩ 7).1 9 = 1 := by
  have h := delete_spec intEq ⟨3, [5, 7, 9], [1, 1, 1]⟩ 7 1 (by decide) (by decide)
  refine ⟨h.1, h.2.1, ?_, ?_⟩
  · exact (h.2.2 5 0 (by decide)).1 (by decide)
  · exact ((h.2.2 9 2 (by decide)).2 (by decide)).trans (by decide)

/-- Witness for C6 at a concrete input. -/
theorem remove_then_add_restores_witness :
    (Roulette.add intEq (Roulette.remove intEq ⟨2, [5, 7], [1, 3]⟩ 7).1 7).1
      = (⟨2, [5, 7], [1, 3]⟩ : Roulette ℤ) :=
  remove_then_add_restores intEq ⟨2, [5, 7], [1, 3]⟩ 7 1 (by decide) (by decide)

/-- Claim C9: for a nonempty list of non-negative weights with positive
total and any injected random draw in `[0,1)`, `choose` succeeds and
returns the first index whose cumulative weight exceeds the drawn value
`randomInt rand total = floor(rand * total)`; the terminal `RangeError`
branch after the scan is not reached. -/
theorem choose_first_index (weights : List ℚ) (rand : ℚ)
    (hne : weights ≠ [])
    (hnn : ∀ w ∈ weights, 0 ≤ w)
    (hpos : 0 < weights.sum)
    (h0 : 0 ≤ rand) (h1 : rand < 1) :
    ∃ i, choose rand weights = Except.ok i ∧ i < weights.length ∧
      ((randomInt rand weights.sum : ℚ) < (makeCumulative weights).getD i 0) ∧
      ∀ m < i, ¬ ((randomInt rand weights.sum : ℚ) < (makeCumulative weights).getD m 0) := by
  have hlast : (makeCumulative weights).getLast? = some weights.sum := by
    rw [makeCumulative, makeCumulativeGo_getLast 0 weights hne, zero_add]
  have hmem : weights.sum ∈ makeCumulative weights := mem_of_getLast_opt _ _ hlast
  have hvlt : ((randomInt rand weights.sum : ℤ) : ℚ) < weights.sum := by
    calc ((randomInt rand weights.sum : ℤ) : ℚ)
        ≤ rand * weights.sum := Int.floor_le _
      _ < 1 * weights.sum := mul_lt_mul_of_pos_right h1 hpos
      _ = weights.sum := one_mul _
  obtain ⟨j, hscan, hjlt, hjsat, hjfirst⟩ :=
    chooseScan_spec (randomInt rand weights.sum) (makeCumulative weights) 0
      ⟨weights.sum, hmem, hvlt⟩
  refine ⟨j, ?_, ?_, hjsat, hjfirst⟩
  · unfold choose
    simp only [hlast, Option.map_some', hscan, Nat.zero_add]
  · calc j < (makeCumulative weights).length := hjlt
      _ = weights.length := by rw [makeCumulative, makeCumulativeGo_length]

lemma weights123_ne_nil : ([1, 2, 3] : List ℚ) ≠ [] := by simp

lemma weights123_nonneg : ∀ w ∈ ([1, 2, 3] : List ℚ), 0 ≤ w := by
  intro w hw
  simp only [List.mem_cons, List.mem_singleton] at hw
  rcases hw with rfl | rfl | rfl | h
  · norm_num
  · norm_num
  · norm_num
  · simp at h

lemma weights123_sum_pos : (0 : ℚ) < ([1, 2, 3] : List ℚ).sum := by
  simp only [List.sum_cons, List.sum_nil]
  norm_num

/-- Witness for C9 at a concrete input. -/
theorem choose_first_index_witness :
    ∃ i, choose 0 [1, 2, 3] = Except.ok i ∧ i < ([1, 2, 3] : List ℚ).length ∧
      ((randomInt 0 ([1, 2, 3] : List ℚ).sum : ℚ) < (makeCumulative [1, 2, 3]).getD i 0) ∧
      ∀ m < i, ¬ ((randomInt 0 ([1, 2, 3] : List ℚ).sum : ℚ) < (makeCumulative [1, 2, 3]).getD m 0) :=
  choose_first_index [1, 2, 3] 0 weights123_ne_nil weights123_nonneg
    weights123_sum_pos (le_refl 0) zero_lt_one

/-- Claim C1 (code-bug exhibit): when the collection is empty or every
stored count is 0 — so the filtered item/weight arrays are empty — `get`
does not return an absent result: the thrown `RangeError` of `choose`
propagates out, for every exponent and every injected random value. -/
theorem get_allzero_raises {α : Type} (powFn : ℚ → ℚ → ℚ) (rand w : ℚ)
    (r : Roulette α) (hz : ∀ c ∈ r.counts, c = 0) :
    Roulette.get powFn rand r w
      = Except.error "no valid choice from cumulative weights" := by
  unfold Roulette.get
  rw [activePairs_eq_nil r.items r.counts hz]
  simp [roulette, choose, makeCumulative, makeCumulativeGo, chooseScan]

/-- Witness for C1 at a concrete input: a freshly constructed collection. -/
theorem get_allzero_raises_witness :
    Roulette.get (α := ℤ) (fun x _ => x) 0 Roulette.empty 2
      = Except.error "no valid choice from cumulative weights" :=
  get_allzero_raises (fun x _ => x) 0 2 Roulette.empty (by simp [Roulette.empty])

/-- Claim C8 (counterexample): the claim says the default `equal` returns
`false` whenever a null-like value is compared with any other value,
including any non-null keyed structure; but comparing `null` with the
empty object `{}` returns `true` — the object branch iterates no
enumerable properties on either side. -/
theorem equal_null_emptyobj : equal JSVal.null (JSVal.obj []) = Except.ok true := rfl

/-- Claim C8 (amended): `null` equals `null` and `undefined` equals
`undefined`; a null-like value compared with `undefined`-vs-`null` or
with any primitive yields `false`; but `null` compared with the empty
keyed structure (in either order) or with the empty sequence (as first
argument) yields `true`, and comparing `null` with a nonempty structure
raises a TypeError instead of returning `false`. -/
theorem equal_nulllike_spec :
    equal JSVal.null JSVal.null = Except.ok true ∧
    equal JSVal.undef JSVal.undef = Except.ok true ∧
    equal JSVal.null JSVal.undef = Except.ok false ∧
    equal JSVal.undef JSVal.null = Except.ok false ∧
    (∀ b : Bool, equal JSVal.null (JSVal.bool b) = Except.ok false ∧
      equal (JSVal.bool b) JSVal.null = Except.ok false ∧
      equal JSVal.undef (JSVal.bool b) = Except.ok false ∧
      equal (JSVal.bool b) JSVal.undef = Except.ok false) ∧
    (∀ q : ℚ, equal JSVal.null (JSVal.num q) = Except.ok false ∧
      equal (JSVal.num q) JSVal.null = Except.ok false ∧
      equal JSVal.undef (JSVal.num q) = Except.ok false ∧
      equal (JSVal.num q) JSVal.undef = Except.ok false) ∧
    (∀ s : String, equal JSVal.null (JSVal.str s) = Except.ok false ∧
      equal (JSVal.str s) JSVal.null = Except.ok false ∧
      equal JSVal.undef (JSVal.str s) = Except.ok false ∧
      equal (JSVal.str s) JSVal.undef = Except.ok false) ∧
    equal JSVal.null (JSVal.obj []) = Except.ok true ∧
    equal (JSVal.obj []) JSVal.null = Except.ok true ∧
    equal JSVal.null (JSVal.arr []) = Except.ok true ∧
    equal (JSVal.arr []) JSVal.null = Except.ok false ∧
    equal JSVal.null (JSVal.obj [("a", JSVal.num 1)]) = Except.error () ∧
    equal JSVal.null (JSVal.arr [JSVal.num 1]) = Except.error () :=
  ⟨rfl, rfl, rfl, rfl, fun _ => ⟨rfl, rfl, rfl, rfl⟩, fun _ => ⟨rfl, rfl, rfl, rfl⟩,
    fun _ => ⟨rfl, rfl, rfl, rfl⟩, rfl, rfl, rfl, rfl, rfl, rfl⟩

/-- Claim C10: the default `equal` is not symmetric — comparing the empty
keyed structure with the empty sequence returns `true` (the object branch
checks no properties), while the reversed comparison returns `false`
(the `Array.isArray` test on the second argument is only performed when
the first argument is a sequence). -/
theorem equal_not_symm :
    equal (JSVal.obj []) (JSVal.arr []) = Except.ok true ∧
    equal (JSVal.arr []) (JSVal.obj []) = Except.ok false :=
  ⟨rfl, rfl⟩

end RouletteJS
